import Mathlib

/-!
Shallow embedding of the aggregation service layer of the Esports Gaming
Dashboard backend (src/server/services/rawgServices.js).

Modelling choices:
* Network behaviour of the two upstream providers (the RAWG catalog API and
  the Twitch streaming API) is abstracted as values of type `Provider`
  (for the streaming API) and as `Except String` valued catalog responses
  (for the catalog API): an `Except.error` models a rejected axios promise.
* The process-wide mutable `twitchToken` variable, together with a trace of
  the network requests performed, is threaded explicitly as a state `St`.
* JavaScript truthiness of the token strings (`null`, `undefined` and `""`
  are all falsy) is modelled by `jsTruthy` on `Option String`, with `none`
  standing for `null`/`undefined`/absent.
* A JavaScript function that can throw returns `Except (String × St)`:
  the error carries the state at the time of the throw (the mutable cache
  and the requests already performed survive a throw).
* Machine numbers: all viewer counts and tallies are `Nat` (the provider
  schema delivers non-negative counts and JavaScript numbers never
  overflow at these magnitudes).
-/

namespace EsportsDashboard

/-- One network request performed by the service layer against the
streaming provider. -/
inductive NetCall where
  | tokenCall : NetCall
  | searchCall (gameName : String) : NetCall
  | streamsCall (gameId : String) : NetCall
deriving DecidableEq, Repr

/-- Response body of the streaming provider's token endpoint:
`\x7b access_token \x7d`; the field may be absent (`none`). -/
structure TokenResponse where
  access_token : Option String
deriving DecidableEq, Repr

/-- One entity returned by the streaming provider's search endpoint. -/
structure TwitchGame where
  id : String
deriving DecidableEq, Repr

/-- One active session returned by the streaming provider. -/
structure TwitchStream where
  viewer_count : Nat
deriving DecidableEq, Repr

/-- One genre object attached to a catalog item (`genre.name`). -/
structure Genre where
  name : String
deriving DecidableEq, Repr

/-- One catalog item as returned by the catalog provider's games endpoint. -/
structure CatalogItem where
  id : Nat
  name : Option String
  background_image : Option String
  genres : List Genre
deriving DecidableEq, Repr

/-- One platform as returned by the catalog provider's platforms endpoint. -/
structure Platform where
  slug : String
  name : String
  games_count : Nat
deriving DecidableEq, Repr

/-- Abstract behaviour of the streaming provider for the requests issued by
the service layer; `Except.error` models a rejected request (network or
protocol failure). -/
structure Provider where
  tokenExchange : Except String TokenResponse
  searchGames : String → Except String (List TwitchGame)
  getStreams : String → Except String (List TwitchStream)

/-- Process state threaded through the service layer: the module-level
`twitchToken` cache variable and the trace of network requests performed
against the streaming provider. -/
structure St where
  twitchToken : Option String
  calls : List NetCall
deriving DecidableEq, Repr

/-- JavaScript truthiness of a possibly-absent string: `null`, `undefined`
and the empty string are falsy. -/
def jsTruthy : Option String → Bool
  | none => false
  | some s => s != ""

/-- Recognizer for token-exchange requests in the trace. -/
def NetCall.isToken : NetCall → Bool
  | .tokenCall => true
  | _ => false

/-- Number of token-exchange network requests recorded in a state. -/
def tokenFetchCount (s : St) : Nat :=
  s.calls.countP NetCall.isToken

/-- Embedding of `getTwitchAccessToken`: return the cached token when it is
truthy; otherwise perform the client-credentials exchange, cache whatever
`access_token` the response carries, and return it; on a failed exchange
throw `Could not get Twitch token` without touching the cache. -/
def getTwitchAccessToken (p : Provider) (s : St) :
    Except (String × St) (Option String × St) :=
  if jsTruthy s.twitchToken then
    .ok (s.twitchToken, s)
  else
    match p.tokenExchange with
    | .ok resp =>
        .ok (resp.access_token,
          { twitchToken := resp.access_token, calls := s.calls ++ [.tokenCall] })
    | .error _ =>
        .error ("Could not get Twitch token",
          { twitchToken := s.twitchToken, calls := s.calls ++ [.tokenCall] })

/-- Embedding of the summation loop of `fetchLiveViewers`:
`totalViewers += stream.viewer_count` over all returned streams. -/
def sumViewers (streams : List TwitchStream) : Nat :=
  streams.foldl (fun totalViewers stream => totalViewers + stream.viewer_count) 0

/-- Embedding of the `try` block of `fetchLiveViewers` (steps 2 to 5 of the
algorithm): obtain a token, search the entity by name, and if found sum the
viewer counts of its active sessions; any failed request throws. -/
def fetchLiveViewersTry (p : Provider) (gameName : String) (s : St) :
    Except (String × St) (Nat × St) :=
  match getTwitchAccessToken p s with
  | .error e => .error e
  | .ok (_token, s1) =>
    match p.searchGames gameName with
    | .error e =>
        .error (e, { s1 with calls := s1.calls ++ [.searchCall gameName] })
    | .ok found =>
      let s2 : St := { s1 with calls := s1.calls ++ [.searchCall gameName] }
      match found with
      | [] => .ok (0, s2)
      | g :: _ =>
        match p.getStreams g.id with
        | .error e =>
            .error (e, { s2 with calls := s2.calls ++ [.streamsCall g.id] })
        | .ok streamList =>
            .ok (sumViewers streamList,
              { s2 with calls := s2.calls ++ [.streamsCall g.id] })

/-- Embedding of `fetchLiveViewers`: a falsy game name short-circuits to 0
with no request; otherwise run the try block and convert any thrown error
into a result of 0 (the catch block). The result is `Except`-typed so that
never throwing is a statable property rather than a typing convention. -/
def fetchLiveViewers (p : Provider) (gameName : Option String) (s : St) :
    Except (String × St) (Nat × St) :=
  match gameName with
  | none => .ok (0, s)
  | some n =>
    if n = "" then .ok (0, s)
    else
      match fetchLiveViewersTry p n s with
      | .ok (v, s1) => .ok (v, s1)
      | .error (_, s1) => .ok (0, s1)

/-- Output record of `fetchTrendingGames`. -/
structure LiveMetricsRecord where
  id : Nat
  name : Option String
  image : Option String
  liveViewers : Nat
deriving DecidableEq, Repr

/-- The fan-out of `fetchTrendingGames`: one `fetchLiveViewers` resolution
per catalog item. The resolution of the item at position `i` runs under
provider behaviour `env i` (each concurrent request can fail or succeed
independently) and starts from the shared state `s`; a rejected resolution
would reject the whole `Promise.all`. -/
def resolveRecords (env : Nat → Provider) (s : St) :
    Nat → List CatalogItem → Except (String × St) (List LiveMetricsRecord)
  | _, [] => .ok []
  | i, game :: rest =>
    match fetchLiveViewers (env i) game.name s with
    | .error e => .error e
    | .ok (liveViewers, _) =>
      match resolveRecords env s (i + 1) rest with
      | .error e => .error e
      | .ok records =>
          .ok ({ id := game.id, name := game.name,
                 image := game.background_image,
                 liveViewers := liveViewers } :: records)

/-- Embedding of `fetchTrendingGames`: the catalog fetch itself is the
`catalogResp` argument and its failure is not caught; on success each item
is merged with its live-viewer resolution, in catalog order. -/
def fetchTrendingGames (catalogResp : Except String (List CatalogItem))
    (env : Nat → Provider) (s : St) : Except String (List LiveMetricsRecord) :=
  match catalogResp with
  | .error e => .error e
  | .ok games =>
    match resolveRecords env s 0 games with
    | .error (e, _) => .error e
    | .ok records => .ok records

/-- Embedding of the per-genre update of `fetchGenreTrends`: when the
accumulator holds a truthy count for the label, increment it in place;
when it holds a falsy one (dead in practice), set it to 1 in place;
otherwise append the label with count 1. -/
def bumpGenre (genreCounts : List (String × Nat)) (genreName : String) :
    List (String × Nat) :=
  match genreCounts.lookup genreName with
  | some c =>
    if c = 0 then
      genreCounts.map (fun p => if p.1 = genreName then (p.1, 1) else p)
    else
      genreCounts.map (fun p => if p.1 = genreName then (p.1, c + 1) else p)
  | none => genreCounts ++ [(genreName, 1)]

/-- Embedding of the two nested `forEach` loops of `fetchGenreTrends`:
tally every genre name of every game, in iteration order, into an
insertion-ordered map (a JavaScript object with string keys). -/
def tallyGenres (games : List CatalogItem) : List (String × Nat) :=
  games.foldl
    (fun genreCounts game =>
      game.genres.foldl (fun acc genre => bumpGenre acc genre.name) genreCounts)
    []

/-- Embedding of `genreName.toLowerCase().replace(' ', '-')`: JavaScript
`replace` with a string pattern replaces only the first occurrence. -/
def replaceFirstSpace : List Char → List Char
  | [] => []
  | c :: cs => if c = ' ' then '-' :: cs else c :: replaceFirstSpace cs

/-- Slug derivation used for genre ids: lowercase the label character by
character, then hyphenate the first space. -/
def slugify (label : String) : String :=
  String.mk (replaceFirstSpace (label.data.map Char.toLower))

/-- Output record of `fetchGenreTrends`. -/
structure GenreStat where
  id : String
  label : String
  value : Nat
deriving DecidableEq, Repr

/-- Embedding of `fetchGenreTrends`: the catalog fetch failure is not
caught; on success the genres are tallied and the tally is formatted by
mapping over its keys (`Object.keys` order is insertion order for these
string keys). -/
def fetchGenreTrends (catalogResp : Except String (List CatalogItem)) :
    Except String (List GenreStat) :=
  match catalogResp with
  | .error e => .error e
  | .ok games =>
    let genreCounts := tallyGenres games
    .ok ((genreCounts.map Prod.fst).map (fun genreName =>
      { id := slugify genreName
        label := genreName
        value := (genreCounts.lookup genreName).getD 0 }))

/-- Output record of `fetchPlatformPerformance`. -/
structure PlatformStat where
  id : String
  label : String
  value : Nat
deriving DecidableEq, Repr

/-- Embedding of `fetchPlatformPerformance`: the platforms fetch failure is
not caught; on success each platform maps directly to its stat record, in
response order. -/
def fetchPlatformPerformance (platformResp : Except String (List Platform)) :
    Except String (List PlatformStat) :=
  match platformResp with
  | .error e => .error e
  | .ok platforms =>
    .ok (platforms.map (fun platform =>
      { id := platform.slug
        label := platform.name
        value := platform.games_count }))

/-- A sequence of sequential `fetchLiveViewers` calls within one process
lifetime, each under its own provider behaviour, threading the shared
token cache; a rejected call would propagate. -/
def runSequence (callSeq : List (Provider × Option String)) (s : St) :
    Except (String × St) (List Nat × St) :=
  match callSeq with
  | [] => .ok ([], s)
  | (p, gameName) :: rest =>
    match fetchLiveViewers p gameName s with
    | .error e => .error e
    | .ok (v, s1) =>
      match runSequence rest s1 with
      | .error e => .error e
      | .ok (vs, s2) => .ok (v :: vs, s2)

/-- The viewer count a resolution yields (its observable value). -/
def liveViewersVal (p : Provider) (gameName : Option String) (s : St) : Nat :=
  match fetchLiveViewers p gameName s with
  | .ok (v, _) => v
  | .error _ => 0

/-- State reached by a token request, whether it returned or threw. -/
def stateAfterToken : Except (String × St) (Option String × St) → St
  | .ok (_, t) => t
  | .error (_, t) => t

/-- Collect completed indexed tasks into result positions by their original
index, the fan-in discipline of `Promise.all`. -/
def collectByIndex (n : Nat) (completions : List (Nat × LiveMetricsRecord)) :
    List (Option LiveMetricsRecord) :=
  (List.range n).map (fun i => completions.lookup i)

/-- State reached by a try block, whether it returned or threw. -/
def stateOfTry : Except (String × St) (Nat × St) → St
  | .ok (_, t) => t
  | .error (_, t) => t

/-- Every genre label of every catalog item, in iteration order. -/
def allLabels (games : List CatalogItem) : List String :=
  (games.map (fun game => game.genres.map Genre.name)).flatten

/-- A provider whose token exchange succeeds with a non-empty token. -/
def goodToken (p : Provider) : Prop :=
  ∃ resp, p.tokenExchange = Except.ok resp ∧ jsTruthy resp.access_token = true

/-- Streaming provider behaviour where every request fails. -/
def badProvider : Provider where
  tokenExchange := .error "network down"
  searchGames := fun _ => .error "network down"
  getStreams := fun _ => .error "network down"

/-- Streaming provider behaviour where every request succeeds: the search
finds one entity and it has three active sessions with viewer counts 120,
80 and 300. -/
def goodProvider : Provider where
  tokenExchange := .ok ⟨some "tok"⟩
  searchGames := fun _ => .ok [⟨"516575"⟩]
  getStreams := fun _ => .ok [⟨120⟩, ⟨80⟩, ⟨300⟩]

/-- Streaming provider behaviour whose token endpoint succeeds but returns
an empty access token. -/
def emptyTokenProvider : Provider where
  tokenExchange := .ok ⟨some ""⟩
  searchGames := fun _ => .error "unauthorized"
  getStreams := fun _ => .error "unauthorized"

/-- Initial process state: no cached token, no requests performed. -/
def st0 : St := ⟨none, []⟩

/-- A small concrete catalog used to instantiate the theorems. -/
def demoCatalog : List CatalogItem :=
  [{ id := 1, name := some "Valorant", background_image := some "valorant.png",
     genres := [⟨"Action"⟩, ⟨"RPG"⟩] },
   { id := 2, name := some "Dota 2", background_image := none,
     genres := [⟨"Action"⟩] }]

/-! ## Helper lemmas -/

theorem sumViewers_eq_sum (streams : List TwitchStream) :
    sumViewers streams = (streams.map TwitchStream.viewer_count).sum := by
  suffices h : ∀ a, streams.foldl (fun t st => t + st.viewer_count) a
      = a + (streams.map TwitchStream.viewer_count).sum by
    simpa [sumViewers] using h 0
  induction streams with
  | nil => simp
  | cons st rest ih =>
    intro a
    simp [List.foldl_cons, ih, Nat.add_assoc]

theorem fetchLiveViewers_catch (p : Provider) (n : String) (s : St) (e : String)
    (s1 : St) (hne : n ≠ "") (h : fetchLiveViewersTry p n s = .error (e, s1)) :
    fetchLiveViewers p (some n) s = .ok (0, s1) := by
  simp [fetchLiveViewers, hne, h]

theorem fetchLiveViewers_isOk (p : Provider) (gameName : Option String) (s : St) :
    ∃ v s1, fetchLiveViewers p gameName s = .ok (v, s1) := by
  match gameName with
  | none => exact ⟨0, s, rfl⟩
  | some n =>
    by_cases hne : n = ""
    · exact ⟨0, s, by simp [fetchLiveViewers, hne]⟩
    · match h : fetchLiveViewersTry p n s with
      | .ok (v, s1) => exact ⟨v, s1, by simp [fetchLiveViewers, hne, h]⟩
      | .error (e, s1) => exact ⟨0, s1, by simp [fetchLiveViewers, hne, h]⟩

theorem liveViewersVal_eq (p : Provider) (gameName : Option String) (s : St)
    (v : Nat) (s1 : St) (h : fetchLiveViewers p gameName s = .ok (v, s1)) :
    liveViewersVal p gameName s = v := by
  simp [liveViewersVal, h]

/-! ## Claim theorems -/

/-- C1: for every display name and every provider behaviour, including
network or protocol errors at any stage, `fetchLiveViewers` never raises
and always returns a non-negative count; when the try block throws at any
stage the returned count is exactly 0. -/
theorem fetchLiveViewers_never_raises (p : Provider) (gameName : Option String)
    (s : St) :
    (∃ v s1, fetchLiveViewers p gameName s = Except.ok (v, s1) ∧ 0 ≤ v) ∧
    (∀ n e s1, gameName = some n →
      fetchLiveViewersTry p n s = Except.error (e, s1) →
      ∃ s2, fetchLiveViewers p gameName s = Except.ok (0, s2)) := by
  constructor
  · obtain ⟨v, s1, h⟩ := fetchLiveViewers_isOk p gameName s
    exact ⟨v, s1, h, Nat.zero_le v⟩
  · rintro n e s1 rfl h
    by_cases hne : n = ""
    · exact ⟨s, by simp [fetchLiveViewers, hne]⟩
    · exact ⟨s1, fetchLiveViewers_catch p n s e s1 hne h⟩

/-- C1 witness: a provider whose token exchange fails still yields a
returned value, namely 0. -/
theorem fetchLiveViewers_never_raises_witness :
    ∃ s2, fetchLiveViewers badProvider (some "Valorant") st0 =
      Except.ok (0, s2) :=
  (fetchLiveViewers_never_raises badProvider (some "Valorant") st0).2 "Valorant"
    "Could not get Twitch token" ⟨none, [NetCall.tokenCall]⟩ rfl rfl

/-- C2: `fetchLiveViewers` implements the specified algorithm: a falsy
display name returns 0 immediately with no network call and no state
change; a zero-match entity search returns 0; otherwise the identifier of
the first match is used and the result is the sum of the viewer counts of
all returned active sessions for it. -/
theorem fetchLiveViewers_algorithm (p : Provider) (s : St) :
    fetchLiveViewers p none s = Except.ok (0, s) ∧
    fetchLiveViewers p (some "") s = Except.ok (0, s) ∧
    (∀ n t s1, n ≠ "" → getTwitchAccessToken p s = Except.ok (t, s1) →
      p.searchGames n = Except.ok [] →
      fetchLiveViewers p (some n) s =
        Except.ok (0, { s1 with calls := s1.calls ++ [NetCall.searchCall n] })) ∧
    (∀ n t s1 g gs streamList, n ≠ "" →
      getTwitchAccessToken p s = Except.ok (t, s1) →
      p.searchGames n = Except.ok (g :: gs) →
      p.getStreams g.id = Except.ok streamList →
      ∃ s2, fetchLiveViewers p (some n) s =
        Except.ok ((streamList.map TwitchStream.viewer_count).sum, s2)) := by
  refine ⟨rfl, by simp [fetchLiveViewers], ?_, ?_⟩
  · intro n t s1 hne htok hsearch
    simp [fetchLiveViewers, hne, fetchLiveViewersTry, htok, hsearch]
  · intro n t s1 g gs streamList hne htok hsearch hstreams
    refine ⟨{ s1 with
      calls := s1.calls ++ [NetCall.searchCall n] ++ [NetCall.streamsCall g.id] }, ?_⟩
    simp [fetchLiveViewers, hne, fetchLiveViewersTry, htok, hsearch, hstreams,
      sumViewers_eq_sum]

/-- C2 witness: with one matched entity and active sessions carrying viewer
counts 120, 80 and 300, the resolution yields 500. -/
theorem fetchLiveViewers_algorithm_witness :
    ∃ s2, fetchLiveViewers goodProvider (some "Valorant") st0 =
      Except.ok (500, s2) := by
  have h := (fetchLiveViewers_algorithm goodProvider st0).2.2.2 "Valorant"
    (some "tok") ⟨some "tok", [NetCall.tokenCall]⟩ ⟨"516575"⟩ []
    [⟨120⟩, ⟨80⟩, ⟨300⟩] (by decide) rfl rfl rfl
  simpa using h

/-- C5: a failure of the primary catalog fetch is not caught by any of the
three aggregation operations; the error propagates to the caller
unchanged. -/
theorem catalogFetchError_propagates (e : String) (env : Nat → Provider) (s : St) :
    fetchTrendingGames (Except.error e) env s = Except.error e ∧
    fetchGenreTrends (Except.error e) = Except.error e ∧
    fetchPlatformPerformance (Except.error e) = Except.error e :=
  ⟨rfl, rfl, rfl⟩

/-- C8: a failing token exchange caches nothing (the cache slot keeps its
previous, still falsy, content) and throws a credential-unavailable error
to the caller instead of returning a value. -/
theorem getTwitchAccessToken_failure (p : Provider) (s : St) (msg : String)
    (hfail : p.tokenExchange = Except.error msg)
    (hc : jsTruthy s.twitchToken = false) :
    getTwitchAccessToken p s =
      Except.error ("Could not get Twitch token",
        { twitchToken := s.twitchToken,
          calls := s.calls ++ [NetCall.tokenCall] }) ∧
    jsTruthy (stateAfterToken (getTwitchAccessToken p s)).twitchToken = false := by
  have h1 : getTwitchAccessToken p s =
      Except.error ("Could not get Twitch token",
        { twitchToken := s.twitchToken,
          calls := s.calls ++ [NetCall.tokenCall] }) := by
    simp [getTwitchAccessToken, hc, hfail]
  refine ⟨h1, ?_⟩
  rw [h1]
  simpa [stateAfterToken] using hc

/-- C8 witness: the failing exchange at the initial state. -/
theorem getTwitchAccessToken_failure_witness :
    getTwitchAccessToken badProvider st0 =
      Except.error ("Could not get Twitch token", ⟨none, [NetCall.tokenCall]⟩) ∧
    jsTruthy (stateAfterToken (getTwitchAccessToken badProvider st0)).twitchToken
      = false :=
  getTwitchAccessToken_failure badProvider st0 "network down" rfl rfl

/-- C9: `fetchPlatformPerformance` maps each provider entry directly to its
stat record, with id the provider slug, label the provider name and value
the provider game count, in exactly the provider's response order. -/
theorem fetchPlatformPerformance_maps_in_order (platforms : List Platform) :
    fetchPlatformPerformance (Except.ok platforms) =
      Except.ok (platforms.map (fun platform =>
        ({ id := platform.slug, label := platform.name,
           value := platform.games_count } : PlatformStat))) ∧
    (platforms.map (fun platform =>
        ({ id := platform.slug, label := platform.name,
           value := platform.games_count } : PlatformStat))).length
      = platforms.length ∧
    ∀ i : Nat, (platforms.map (fun platform =>
        ({ id := platform.slug, label := platform.name,
           value := platform.games_count } : PlatformStat)))[i]? =
      (platforms[i]?).map (fun (platform : Platform) =>
        ({ id := platform.slug, label := platform.name,
           value := platform.games_count } : PlatformStat)) := by
  refine ⟨rfl, by simp, ?_⟩
  intro i
  simp

/-- C10: when the token endpoint succeeds but the access token is absent or
empty, `getTwitchAccessToken` returns that falsy value, the cache slot is
left falsy, and the next call, whatever its provider behaviour, performs
the token exchange network request again. -/
theorem falsy_access_token_not_cached (p : Provider) (s : St)
    (resp : TokenResponse) (hx : p.tokenExchange = Except.ok resp)
    (hfalsy : jsTruthy resp.access_token = false)
    (hc : jsTruthy s.twitchToken = false) :
    getTwitchAccessToken p s =
      Except.ok (resp.access_token,
        { twitchToken := resp.access_token,
          calls := s.calls ++ [NetCall.tokenCall] }) ∧
    (∀ p2 : Provider,
      (stateAfterToken (getTwitchAccessToken p2
          { twitchToken := resp.access_token,
            calls := s.calls ++ [NetCall.tokenCall] })).calls =
        s.calls ++ [NetCall.tokenCall] ++ [NetCall.tokenCall]) := by
  have h1 : getTwitchAccessToken p s =
      Except.ok (resp.access_token,
        { twitchToken := resp.access_token,
          calls := s.calls ++ [NetCall.tokenCall] }) := by
    simp [getTwitchAccessToken, hc, hx]
  refine ⟨h1, ?_⟩
  intro p2
  cases hx2 : p2.tokenExchange with
  | ok resp2 => simp [getTwitchAccessToken, stateAfterToken, hfalsy, hx2]
  | error msg => simp [getTwitchAccessToken, stateAfterToken, hfalsy, hx2]

/-- C10 witness: an exchange that succeeds with an empty token string. -/
theorem falsy_access_token_not_cached_witness :
    getTwitchAccessToken emptyTokenProvider st0 =
      Except.ok (some "", ⟨some "", [NetCall.tokenCall]⟩) ∧
    (∀ p2 : Provider,
      (stateAfterToken (getTwitchAccessToken p2
          ⟨some "", [NetCall.tokenCall]⟩)).calls =
        [NetCall.tokenCall, NetCall.tokenCall]) :=
  falsy_access_token_not_cached emptyTokenProvider st0 ⟨some ""⟩ rfl rfl rfl

theorem lookup_eq_of_perm {β : Type} (l1 l2 : List (Nat × β)) (hp : l1.Perm l2)
    (hd : (l1.map Prod.fst).Nodup) (i : Nat) : l1.lookup i = l2.lookup i := by
  induction hp with
  | nil => rfl
  | cons x h ih =>
    obtain ⟨k, b⟩ := x
    rw [List.lookup_cons, List.lookup_cons]
    cases hik : i == k with
    | true => rfl
    | false => exact ih (by simpa using hd.of_cons)
  | swap x y t =>
    obtain ⟨k1, b1⟩ := x
    obtain ⟨k2, b2⟩ := y
    have hne : k2 ≠ k1 := by
      have h2 := hd
      simp at h2
      exact h2.1.1
    rw [List.lookup_cons, List.lookup_cons, List.lookup_cons, List.lookup_cons]
    cases h1 : i == k2 with
    | true =>
      cases h2 : i == k1 with
      | true =>
        exact absurd (eq_of_beq h1 ▸ eq_of_beq h2) hne
      | false => rfl
    | false =>
      cases h2 : i == k1 with
      | true => rfl
      | false => rfl
  | trans h1 h2 ih1 ih2 =>
    have hd2 : _ := ((h1.map Prod.fst).nodup_iff).mp hd
    exact (ih1 hd).trans (ih2 hd2)

theorem enumFrom_lookup {β : Type} (l : List β) :
    ∀ k i, (List.enumFrom k l).lookup i =
      if i < k then none else l[i - k]? := by
  induction l with
  | nil =>
    intro k i
    split <;> simp
  | cons b t ih =>
    intro k i
    rw [List.enumFrom_cons, List.lookup_cons]
    by_cases hik : i = k
    · subst hik
      simp
    · have hbeq : (i == k) = false := by
        simpa using hik
      rw [hbeq]
      show (List.enumFrom (k + 1) t).lookup i = _
      rw [ih (k + 1) i]
      by_cases hlt : i < k
      · rw [if_pos (by omega), if_pos hlt]
      · rw [if_neg (by omega), if_neg hlt]
        have h1 : i - k = (i - (k + 1)) + 1 := by omega
        rw [h1]
        simp

theorem enum_lookup {β : Type} (l : List β) (i : Nat) :
    l.enum.lookup i = l[i]? := by
  have h := enumFrom_lookup l 0 i
  simpa [List.enum] using h

theorem range_map_getElem? {β : Type} (l : List β) :
    (List.range l.length).map (fun i => l[i]?) = l.map some := by
  induction l with
  | nil => rfl
  | cons b t ih =>
    rw [List.length_cons, List.range_succ_eq_map, List.map_cons, List.map_map]
    have h1 : ((fun i => (b :: t)[i]?) ∘ Nat.succ) = fun i => t[i]? := by
      funext i
      simp
    rw [h1, ih]
    simp

theorem collectByIndex_perm (records : List LiveMetricsRecord)
    (completions : List (Nat × LiveMetricsRecord))
    (hp : completions.Perm records.enum) :
    collectByIndex records.length completions = records.map some := by
  have hnd : (completions.map Prod.fst).Nodup := by
    have h := List.nodup_enum_map_fst records
    exact ((hp.map Prod.fst).nodup_iff).mpr h
  have h1 : ∀ i, completions.lookup i = records.enum.lookup i :=
    fun i => lookup_eq_of_perm completions records.enum hp hnd i
  unfold collectByIndex
  calc (List.range records.length).map (fun i => completions.lookup i)
      = (List.range records.length).map (fun i => records.enum.lookup i) := by
        exact List.map_congr_left (fun i _ => h1 i)
    _ = (List.range records.length).map (fun i => records[i]?) := by
        exact List.map_congr_left (fun i _ => enum_lookup records i)
    _ = records.map some := range_map_getElem? records

theorem resolveRecords_spec (env : Nat → Provider) (s : St)
    (games : List CatalogItem) :
    ∀ k, ∃ records, resolveRecords env s k games = Except.ok records ∧
      records.length = games.length ∧
      ∀ i : Nat, records[i]? = (games[i]?).map (fun (game : CatalogItem) =>
        { id := game.id, name := game.name, image := game.background_image,
          liveViewers := liveViewersVal (env (k + i)) game.name s }) := by
  induction games with
  | nil =>
    intro k
    exact ⟨[], rfl, rfl, fun i => by simp⟩
  | cons game rest ih =>
    intro k
    obtain ⟨v, s1, hv⟩ := fetchLiveViewers_isOk (env k) game.name s
    obtain ⟨records, hrec, hlen, hidx⟩ := ih (k + 1)
    refine ⟨{ id := game.id, name := game.name, image := game.background_image,
              liveViewers := v } :: records, ?_, ?_, ?_⟩
    · simp [resolveRecords, hv, hrec]
    · simp [hlen]
    · intro i
      match i with
      | 0 =>
        have h0 : liveViewersVal (env k) game.name s = v :=
          liveViewersVal_eq (env k) game.name s v s1 hv
        simp [Nat.add_zero, h0]
      | i + 1 =>
        have hk : k + 1 + i = k + (i + 1) := by omega
        simpa [hk] using hidx i

theorem fetchTrendingGames_ok (env : Nat → Provider) (s : St)
    (games : List CatalogItem) (records : List LiveMetricsRecord)
    (h : resolveRecords env s 0 games = Except.ok records) :
    fetchTrendingGames (Except.ok games) env s = Except.ok records := by
  simp [fetchTrendingGames, h]

/-- C3: for every catalog response, `fetchTrendingGames` produces exactly
one record per catalog item, each built from its item, and the output
sequence matches the catalog order; collecting the concurrently resolved
indexed tasks in any completion order yields the same sequence. -/
theorem fetchTrendingGames_order (games : List CatalogItem)
    (env : Nat → Provider) (s : St) :
    ∃ records, fetchTrendingGames (Except.ok games) env s = Except.ok records ∧
      records.length = games.length ∧
      (∀ i : Nat, records[i]? = (games[i]?).map (fun (game : CatalogItem) =>
        { id := game.id, name := game.name, image := game.background_image,
          liveViewers := liveViewersVal (env i) game.name s })) ∧
      (∀ completions, completions.Perm records.enum →
        collectByIndex games.length completions = records.map some) := by
  obtain ⟨records, hrec, hlen, hidx⟩ := resolveRecords_spec env s games 0
  refine ⟨records, fetchTrendingGames_ok env s games records hrec, hlen, ?_, ?_⟩
  · intro i
    simpa using hidx i
  · intro completions hp
    rw [← hlen]
    exact collectByIndex_perm records completions hp

/-- C3 witness: the demo catalog resolved under the all-good provider;
collecting the indexed tasks in reversed completion order still yields the
catalog-ordered records. -/
theorem fetchTrendingGames_order_witness :
    ∃ records, fetchTrendingGames (Except.ok demoCatalog)
        (fun _ => goodProvider) st0 = Except.ok records ∧
      collectByIndex demoCatalog.length records.enum.reverse =
        records.map some := by
  obtain ⟨records, h1, _, _, h4⟩ :=
    fetchTrendingGames_order demoCatalog (fun _ => goodProvider) st0
  exact ⟨records, h1, h4 records.enum.reverse records.enum.reverse_perm⟩

/-- C6: when exactly one per-item resolution throws a network exception,
`fetchTrendingGames` still returns; the failing item's record carries
`liveViewers` 0 and every other record is identical to the run in which
that resolution did not fail. -/
theorem fetchTrendingGames_frame (games : List CatalogItem)
    (env env2 : Nat → Provider) (s : St) (j : Nat) (g : CatalogItem)
    (n e : String) (s1 : St)
    (hagree : ∀ i, i ≠ j → env2 i = env i)
    (hg : games[j]? = some g) (hn : g.name = some n) (hne : n ≠ "")
    (hfail : fetchLiveViewersTry (env2 j) n s = Except.error (e, s1)) :
    ∃ records records2,
      fetchTrendingGames (Except.ok games) env s = Except.ok records ∧
      fetchTrendingGames (Except.ok games) env2 s = Except.ok records2 ∧
      records2.length = games.length ∧
      records2[j]? = some
        { id := g.id, name := g.name,
          image := g.background_image, liveViewers := 0 } ∧
      (∀ i, i ≠ j → records2[i]? = records[i]?) := by
  obtain ⟨records, hrec, hlen, hidx⟩ := resolveRecords_spec env s games 0
  obtain ⟨records2, hrec2, hlen2, hidx2⟩ := resolveRecords_spec env2 s games 0
  have hzero : liveViewersVal (env2 j) g.name s = 0 := by
    rw [hn]
    exact liveViewersVal_eq _ _ _ 0 s1
      (fetchLiveViewers_catch (env2 j) n s e s1 hne hfail)
  refine ⟨records, records2, fetchTrendingGames_ok env s games records hrec,
    fetchTrendingGames_ok env2 s games records2 hrec2, hlen2, ?_, ?_⟩
  · have h := hidx2 j
    rw [hg] at h
    simpa [hzero] using h
  · intro i hi
    rw [hidx i, hidx2 i]
    simp only [Nat.zero_add]
    rw [hagree i hi]

/-- C6 witness: the second item's resolution fails with a network error;
its record shows 0 live viewers and the first item's record is unchanged. -/
theorem fetchTrendingGames_frame_witness :
    ∃ records records2,
      fetchTrendingGames (Except.ok demoCatalog) (fun _ => goodProvider) st0 =
        Except.ok records ∧
      fetchTrendingGames (Except.ok demoCatalog)
        (fun i => if i = 1 then badProvider else goodProvider) st0 =
        Except.ok records2 ∧
      records2.length = demoCatalog.length ∧
      records2[1]? = some
        { id := 2, name := some "Dota 2", image := none,
          liveViewers := 0 } ∧
      (∀ i, i ≠ 1 → records2[i]? = records[i]?) := by
  have h := fetchTrendingGames_frame demoCatalog (fun _ => goodProvider)
    (fun i => if i = 1 then badProvider else goodProvider) st0 1
    { id := 2, name := some "Dota 2", background_image := none,
      genres := [⟨"Action"⟩] } "Dota 2" "Could not get Twitch token"
    ⟨none, [NetCall.tokenCall]⟩ (fun i hi => by simp [hi]) rfl rfl
    (by decide) rfl
  simpa using h

theorem lookup_map_update_ne (counts : List (String × Nat)) (name m : String)
    (x : Nat) (hm : m ≠ name) :
    (counts.map (fun p => if p.1 = name then (p.1, x) else p)).lookup m =
      counts.lookup m := by
  induction counts with
  | nil => rfl
  | cons q rest ih =>
    obtain ⟨k, b⟩ := q
    by_cases hmk : m = k
    · subst hmk
      have hk : ¬ m = name := hm
      simp [List.lookup_cons, hk]
    · have hbeq : (m == k) = false := beq_eq_false_iff_ne.mpr hmk
      have hbeq2 : (m == name) = false := beq_eq_false_iff_ne.mpr hm
      by_cases hk : k = name <;>
        simp [List.lookup_cons, hk, hbeq, hbeq2, ih]

theorem lookup_map_update_self (counts : List (String × Nat)) (name : String)
    (c x : Nat) (h : counts.lookup name = some c) :
    (counts.map (fun p => if p.1 = name then (p.1, x) else p)).lookup name =
      some x := by
  induction counts with
  | nil => simp at h
  | cons q rest ih =>
    obtain ⟨k, b⟩ := q
    by_cases hk : k = name
    · subst hk
      simp [List.lookup_cons]
    · rw [List.lookup_cons] at h
      have hbeq : (name == k) = false := beq_eq_false_iff_ne.mpr
        (fun hh => hk hh.symm)
      rw [hbeq] at h
      simp [List.lookup_cons, hk, hbeq, ih h]

theorem lookup_append_or (l l2 : List (String × Nat)) (m : String) :
    (l ++ l2).lookup m = (l.lookup m).or (l2.lookup m) := by
  induction l with
  | nil => rfl
  | cons q rest ih =>
    obtain ⟨k, b⟩ := q
    rw [List.cons_append, List.lookup_cons, List.lookup_cons]
    cases hmk : m == k with
    | true => rfl
    | false => exact ih

theorem lookup_mem (l : List (String × Nat)) (m : String) (c : Nat)
    (h : l.lookup m = some c) : (m, c) ∈ l := by
  induction l with
  | nil => simp at h
  | cons q rest ih =>
    obtain ⟨k, b⟩ := q
    rw [List.lookup_cons] at h
    cases hk : m == k with
    | true =>
      rw [hk] at h
      have hb : b = c := Option.some.inj h
      have hmk : m = k := eq_of_beq hk
      subst hb
      subst hmk
      exact List.mem_cons_self _ _
    | false =>
      rw [hk] at h
      exact List.mem_cons_of_mem _ (ih h)

theorem lookup_eq_none_iff (l : List (String × Nat)) (m : String) :
    l.lookup m = none ↔ m ∉ l.map Prod.fst := by
  induction l with
  | nil => simp
  | cons q rest ih =>
    obtain ⟨k, b⟩ := q
    rw [List.lookup_cons]
    cases hk : m == k with
    | true =>
      have hmk : m = k := eq_of_beq hk
      simp [hmk]
    | false =>
      have hmk : m ≠ k := ne_of_beq_false hk
      simp [hmk, ih]

theorem bumpGenre_keys (counts : List (String × Nat)) (name : String) :
    (bumpGenre counts name).map Prod.fst =
      if (counts.lookup name).isSome then counts.map Prod.fst
      else counts.map Prod.fst ++ [name] := by
  have hfst : ∀ x : Nat,
      ((counts.map (fun p => if p.1 = name then (p.1, x) else p)).map
        Prod.fst) = counts.map Prod.fst := by
    intro x
    rw [List.map_map]
    exact List.map_congr_left (fun p _ => by by_cases hp : p.1 = name <;> simp [hp])
  unfold bumpGenre
  cases h : counts.lookup name with
  | none => simp
  | some c => by_cases hc : c = 0 <;> simp [hc, hfst]

theorem bumpGenre_eq_update (counts : List (String × Nat)) (name : String)
    (c : Nat) (h : counts.lookup name = some c) (hc : ¬ c = 0) :
    bumpGenre counts name =
      counts.map (fun p => if p.1 = name then (p.1, c + 1) else p) := by
  simp [bumpGenre, h, hc]

theorem bumpGenre_eq_append (counts : List (String × Nat)) (name : String)
    (h : counts.lookup name = none) :
    bumpGenre counts name = counts ++ [(name, 1)] := by
  simp [bumpGenre, h]

theorem bumpGenre_values (counts : List (String × Nat)) (name : String)
    (hv : ∀ q ∈ counts, 1 ≤ q.2) : ∀ q ∈ bumpGenre counts name, 1 ≤ q.2 := by
  cases h : counts.lookup name with
  | none =>
    rw [bumpGenre_eq_append counts name h]
    intro q hq
    rw [List.mem_append] at hq
    rcases hq with hq | hq
    · exact hv q hq
    · simp at hq
      rw [hq]
  | some c =>
    have hc1 : 1 ≤ c := hv _ (lookup_mem counts name c h)
    rw [bumpGenre_eq_update counts name c h (by omega)]
    intro q hq
    rw [List.mem_map] at hq
    obtain ⟨p, hp, hq⟩ := hq
    subst hq
    by_cases hpn : p.1 = name
    · simp [hpn]
    · simpa [hpn] using hv p hp

theorem bumpGenre_lookup (counts : List (String × Nat)) (name m : String)
    (hv : ∀ q ∈ counts, 1 ≤ q.2) :
    (bumpGenre counts name).lookup m =
      if m = name then some (((counts.lookup name).getD 0) + 1)
      else counts.lookup m := by
  cases h : counts.lookup name with
  | some c =>
    have hc1 : 1 ≤ c := hv _ (lookup_mem counts name c h)
    rw [bumpGenre_eq_update counts name c h (by omega)]
    by_cases hm : m = name
    · subst hm
      rw [if_pos rfl, lookup_map_update_self counts m c (c + 1) h]
      rfl
    · rw [if_neg hm, lookup_map_update_ne counts name m (c + 1) hm]
  | none =>
    rw [bumpGenre_eq_append counts name h, lookup_append_or]
    by_cases hm : m = name
    · subst hm
      rw [h, if_pos rfl]
      simp [List.lookup_cons]
    · rw [if_neg hm]
      have h2 : ([(name, 1)] : List (String × Nat)).lookup m = none := by
        rw [List.lookup_cons, beq_eq_false_iff_ne.mpr hm]
        rfl
      rw [h2]
      cases counts.lookup m <;> rfl

theorem foldl_bumpGenre_spec (labels : List String) :
    ∀ counts, (counts.map Prod.fst).Nodup → (∀ q ∈ counts, 1 ≤ q.2) →
      ((labels.foldl bumpGenre counts).map Prod.fst).Nodup ∧
      (∀ q ∈ labels.foldl bumpGenre counts, 1 ≤ q.2) ∧
      ∀ m, (labels.foldl bumpGenre counts).lookup m =
        match counts.lookup m with
        | some c => some (c + labels.count m)
        | none => if m ∈ labels then some (labels.count m) else none := by
  induction labels with
  | nil =>
    intro counts hnd hv
    refine ⟨hnd, hv, ?_⟩
    intro m
    cases h : counts.lookup m <;> simp [h]
  | cons a rest ih =>
    intro counts hnd hv
    have hnd1 : ((bumpGenre counts a).map Prod.fst).Nodup := by
      rw [bumpGenre_keys counts a]
      cases ha : counts.lookup a with
      | some c => simpa using hnd
      | none =>
        have hmem : a ∉ counts.map Prod.fst := (lookup_eq_none_iff counts a).mp ha
        simp [List.nodup_append, hnd, hmem]
    have hv1 : ∀ q ∈ bumpGenre counts a, 1 ≤ q.2 := bumpGenre_values counts a hv
    obtain ⟨hg, hgv, hlook⟩ := ih (bumpGenre counts a) hnd1 hv1
    refine ⟨hg, hgv, ?_⟩
    intro m
    rw [List.foldl_cons, hlook m, bumpGenre_lookup counts a m hv]
    by_cases hma : m = a
    · subst hma
      rw [if_pos rfl]
      cases h : counts.lookup m with
      | some c => simp [List.count_cons]; omega
      | none => simp [List.count_cons]; omega
    · rw [if_neg hma]
      have hbeq : (m == a) = false := beq_eq_false_iff_ne.mpr hma
      have hma2 : ¬ a = m := fun hh => hma hh.symm
      cases h : counts.lookup m with
      | some c => simp [List.count_cons, hbeq, hma2]
      | none => simp [List.count_cons, hbeq, List.mem_cons, hma, hma2]

theorem tallyGenres_eq_foldl (games : List CatalogItem) :
    tallyGenres games = (allLabels games).foldl bumpGenre [] := by
  suffices h : ∀ acc, games.foldl
      (fun genreCounts game =>
        game.genres.foldl (fun acc2 genre => bumpGenre acc2 genre.name)
          genreCounts)
      acc = (allLabels games).foldl bumpGenre acc from h []
  unfold allLabels
  induction games with
  | nil => intro acc; rfl
  | cons game rest ih =>
    intro acc
    rw [List.foldl_cons, List.map_cons, List.flatten_cons, List.foldl_append,
      ih]
    congr 1
    rw [List.foldl_map]

/-- C7: `fetchGenreTrends` emits exactly one entry per distinct genre label
observed, whose value is the number of occurrences of that label across all
items' genre lists, whose label is the case-preserved original, and whose
id is the label lowercased with only the first space hyphenated; on the
example catalog with genre lists Action+RPG and Action it yields exactly
the entries action/Action/2 and rpg/RPG/1. -/
theorem fetchGenreTrends_counts (games : List CatalogItem) :
    ∃ out, fetchGenreTrends (Except.ok games) = Except.ok out ∧
      (out.map GenreStat.label).Nodup ∧
      (∀ l, l ∈ out.map GenreStat.label ↔ l ∈ allLabels games) ∧
      (∀ gstat, gstat ∈ out → gstat.id = slugify gstat.label ∧
        gstat.value = (allLabels games).count gstat.label) ∧
      fetchGenreTrends (Except.ok demoCatalog) =
        Except.ok [⟨"action", "Action", 2⟩, ⟨"rpg", "RPG", 1⟩] := by
  obtain ⟨hnd, hv, hlook⟩ :=
    foldl_bumpGenre_spec (allLabels games) [] (by simp) (by simp)
  rw [← tallyGenres_eq_foldl] at hnd hv hlook
  have hlook2 : ∀ m, (tallyGenres games).lookup m =
      if m ∈ allLabels games then some ((allLabels games).count m)
      else none := by
    intro m
    have h := hlook m
    simpa using h
  have hcomp : (GenreStat.label ∘ fun genreName =>
      ({ id := slugify genreName, label := genreName,
         value := ((tallyGenres games).lookup genreName).getD 0 } : GenreStat))
      = id := by
    funext x
    rfl
  refine ⟨((tallyGenres games).map Prod.fst).map (fun genreName =>
    ({ id := slugify genreName, label := genreName,
       value := ((tallyGenres games).lookup genreName).getD 0 } : GenreStat)),
    rfl, ?_, ?_, ?_, by rfl⟩
  · rw [List.map_map, hcomp, List.map_id]
    exact hnd
  · intro l
    rw [List.map_map, hcomp, List.map_id]
    constructor
    · intro h
      by_contra habs
      have h0 : (tallyGenres games).lookup l = none := by
        rw [hlook2 l, if_neg habs]
      exact ((lookup_eq_none_iff _ l).mp h0) h
    · intro h
      by_contra habs
      have h0 : (tallyGenres games).lookup l = none :=
        (lookup_eq_none_iff _ l).mpr habs
      rw [hlook2 l, if_pos h] at h0
      cases h0
  · intro gstat hmem
    rw [List.mem_map] at hmem
    obtain ⟨genreName, hkey, hstat⟩ := hmem
    have hin : genreName ∈ allLabels games := by
      by_contra habs
      have h0 : (tallyGenres games).lookup genreName = none := by
        rw [hlook2 genreName, if_neg habs]
      exact ((lookup_eq_none_iff _ genreName).mp h0) hkey
    subst hstat
    refine ⟨rfl, ?_⟩
    show ((tallyGenres games).lookup genreName).getD 0 = _
    rw [hlook2 genreName, if_pos hin]
    rfl

/-- C7 witness: on the demo catalog the entry for Action carries the slug
id and the occurrence count 2. -/
theorem fetchGenreTrends_counts_witness :
    "action" = slugify "Action" ∧
    2 = (allLabels demoCatalog).count "Action" := by
  obtain ⟨out, hout, hnd, hmem, hval, hconc⟩ := fetchGenreTrends_counts demoCatalog
  have heq : out = [⟨"action", "Action", 2⟩, ⟨"rpg", "RPG", 1⟩] :=
    Except.ok.inj (hout.symm.trans hconc)
  have hm : (⟨"action", "Action", 2⟩ : GenreStat) ∈ out := by
    rw [heq]
    simp
  exact hval _ hm

theorem fetchLiveViewersTry_state (p : Provider) (n : String) (s : St)
    (hgood : goodToken p) :
    (jsTruthy s.twitchToken = true →
      (stateOfTry (fetchLiveViewersTry p n s)).twitchToken = s.twitchToken ∧
      tokenFetchCount (stateOfTry (fetchLiveViewersTry p n s)) =
        tokenFetchCount s) ∧
    (jsTruthy s.twitchToken = false →
      jsTruthy (stateOfTry (fetchLiveViewersTry p n s)).twitchToken = true ∧
      tokenFetchCount (stateOfTry (fetchLiveViewersTry p n s)) =
        tokenFetchCount s + 1) := by
  constructor
  · intro hc
    have htok : getTwitchAccessToken p s = Except.ok (s.twitchToken, s) := by
      simp [getTwitchAccessToken, hc]
    unfold fetchLiveViewersTry
    rw [htok]
    cases hs : p.searchGames n with
    | error e =>
      simp [stateOfTry, tokenFetchCount, List.countP_append, List.countP_cons,
        NetCall.isToken]
    | ok found =>
      cases found with
      | nil =>
        simp [stateOfTry, tokenFetchCount, List.countP_append, List.countP_cons,
          NetCall.isToken]
      | cons g gs =>
        cases hst : p.getStreams g.id with
        | error e =>
          simp [stateOfTry, tokenFetchCount, List.countP_append,
            List.countP_cons, NetCall.isToken, hst]
        | ok streamList =>
          simp [stateOfTry, tokenFetchCount, List.countP_append,
            List.countP_cons, NetCall.isToken, hst]
  · intro hc
    obtain ⟨resp, hx, htr⟩ := hgood
    have htok : getTwitchAccessToken p s = Except.ok (resp.access_token,
        { twitchToken := resp.access_token,
          calls := s.calls ++ [NetCall.tokenCall] }) := by
      simp [getTwitchAccessToken, hc, hx]
    unfold fetchLiveViewersTry
    rw [htok]
    cases hs : p.searchGames n with
    | error e =>
      simp [stateOfTry, tokenFetchCount, List.countP_append, List.countP_cons,
        NetCall.isToken, htr]
    | ok found =>
      cases found with
      | nil =>
        simp [stateOfTry, tokenFetchCount, List.countP_append, List.countP_cons,
          NetCall.isToken, htr]
      | cons g gs =>
        cases hst : p.getStreams g.id with
        | error e =>
          simp [stateOfTry, tokenFetchCount, List.countP_append,
            List.countP_cons, NetCall.isToken, htr, hst]
        | ok streamList =>
          simp [stateOfTry, tokenFetchCount, List.countP_append,
            List.countP_cons, NetCall.isToken, htr, hst]

theorem fetchLiveViewers_cache_step (p : Provider) (gameName : Option String)
    (s : St) (v : Nat) (s1 : St) (hgood : goodToken p)
    (h : fetchLiveViewers p gameName s = Except.ok (v, s1)) :
    (s1.twitchToken = s.twitchToken ∧ tokenFetchCount s1 = tokenFetchCount s) ∨
    (jsTruthy s.twitchToken = false ∧ jsTruthy s1.twitchToken = true ∧
      tokenFetchCount s1 = tokenFetchCount s + 1) := by
  have hstate := fetchLiveViewersTry_state p
  match gameName with
  | none =>
    left
    have hs : s1 = s := by
      simp [fetchLiveViewers] at h
      exact h.2.symm
    rw [hs]
    exact ⟨rfl, rfl⟩
  | some n =>
    by_cases hne : n = ""
    · left
      have hs : s1 = s := by
        simp [fetchLiveViewers, hne] at h
        exact h.2.symm
      rw [hs]
      exact ⟨rfl, rfl⟩
    · have hs1 : s1 = stateOfTry (fetchLiveViewersTry p n s) := by
        cases htry : fetchLiveViewersTry p n s with
        | ok r =>
          obtain ⟨v2, s2⟩ := r
          simp [fetchLiveViewers, hne, htry] at h
          rw [← h.2]
          rfl
        | error r =>
          obtain ⟨e, s2⟩ := r
          simp [fetchLiveViewers, hne, htry] at h
          rw [← h.2]
          rfl
      cases hc : jsTruthy s.twitchToken with
      | true =>
        left
        rw [hs1]
        exact (fetchLiveViewersTry_state p n s hgood).1 hc
      | false =>
        right
        rw [hs1]
        exact ⟨rfl, (fetchLiveViewersTry_state p n s hgood).2 hc⟩

theorem runSequence_cons_ok (p : Provider) (gameName : Option String)
    (rest : List (Provider × Option String)) (s : St) (v : Nat) (st1 : St)
    (hv : fetchLiveViewers p gameName s = Except.ok (v, st1)) :
    runSequence ((p, gameName) :: rest) s =
      match runSequence rest st1 with
      | .error e => .error e
      | .ok (vs, s2) => .ok (v :: vs, s2) := by
  simp [runSequence, hv]

theorem runSequence_token_count (callSeq : List (Provider × Option String)) :
    ∀ s vs s2, (∀ q ∈ callSeq, goodToken q.1) →
      runSequence callSeq s = Except.ok (vs, s2) →
      (jsTruthy s.twitchToken = true →
        tokenFetchCount s2 = tokenFetchCount s ∧
        jsTruthy s2.twitchToken = true) ∧
      (jsTruthy s.twitchToken = false →
        tokenFetchCount s2 ≤ tokenFetchCount s + 1) := by
  induction callSeq with
  | nil =>
    intro s vs s2 _ h
    simp [runSequence] at h
    rw [← h.2]
    exact ⟨fun hc => ⟨rfl, hc⟩, fun _ => by omega⟩
  | cons call rest ih =>
    obtain ⟨p, gameName⟩ := call
    intro s vs s2 hgood h
    obtain ⟨v, st1, hv⟩ := fetchLiveViewers_isOk p gameName s
    rw [runSequence_cons_ok p gameName rest s v st1 hv] at h
    cases hrest : runSequence rest st1 with
    | error e =>
      rw [hrest] at h
      simp at h
    | ok r =>
      obtain ⟨vs2, s2'⟩ := r
      rw [hrest] at h
      simp at h
      have hs2 : s2 = s2' := h.2.symm
      subst hs2
      have hstep := fetchLiveViewers_cache_step p gameName s v st1
        (hgood _ (List.mem_cons_self _ _)) hv
      have hih := ih st1 vs2 s2 (fun q hq => hgood q (List.mem_cons_of_mem _ hq))
        hrest
      constructor
      · intro hc
        rcases hstep with ⟨hteq, hcnt⟩ | ⟨hfalse, -, -⟩
        · have hc1 : jsTruthy st1.twitchToken = true := by
            rw [hteq]
            exact hc
          obtain ⟨ha, hb⟩ := hih.1 hc1
          exact ⟨ha.trans hcnt, hb⟩
        · rw [hc] at hfalse
          cases hfalse
      · intro hc
        rcases hstep with ⟨hteq, hcnt⟩ | ⟨-, htrue1, hcnt⟩
        · have hc1 : jsTruthy st1.twitchToken = false := by
            rw [hteq]
            exact hc
          have := hih.2 hc1
          omega
        · obtain ⟨ha, -⟩ := hih.1 htrue1
          omega

/-- C4 (amended): a cached truthy credential is returned immediately with
no network call; and across any sequence of sequential `fetchLiveViewers`
calls starting from an empty cache, provided every attempted token
exchange succeeds with a non-empty access token, the token exchange
network request is performed at most once. -/
theorem token_fetch_at_most_once_amended (p : Provider) (s : St)
    (callSeq : List (Provider × Option String))
    (hcache : jsTruthy s.twitchToken = true)
    (hgood : ∀ q ∈ callSeq, ∃ resp, q.1.tokenExchange = Except.ok resp ∧
      jsTruthy resp.access_token = true) :
    getTwitchAccessToken p s = Except.ok (s.twitchToken, s) ∧
    ∀ vs s2, runSequence callSeq ⟨none, []⟩ = Except.ok (vs, s2) →
      tokenFetchCount s2 ≤ 1 := by
  constructor
  · simp [getTwitchAccessToken, hcache]
  · intro vs s2 h
    have hrun := (runSequence_token_count callSeq ⟨none, []⟩ vs s2 hgood h).2 rfl
    simpa [tokenFetchCount] using hrun

/-- C4 amended witness: two sequential resolutions under a well-behaved
provider share the single fetched token. -/
theorem token_fetch_at_most_once_amended_witness :
    ∃ vs s2, runSequence
        [(goodProvider, some "Valorant"), (goodProvider, some "Dota 2")]
        ⟨none, []⟩ = Except.ok (vs, s2) ∧ tokenFetchCount s2 ≤ 1 := by
  have h := token_fetch_at_most_once_amended goodProvider ⟨some "tok", []⟩
    [(goodProvider, some "Valorant"), (goodProvider, some "Dota 2")]
    (by decide)
    (by
      intro q hq
      simp at hq
      rcases hq with hq | hq <;>
        exact hq ▸ ⟨⟨some "tok"⟩, rfl, by decide⟩)
  exact ⟨[500, 500],
    ⟨some "tok", [NetCall.tokenCall, NetCall.searchCall "Valorant",
      NetCall.streamsCall "516575", NetCall.searchCall "Dota 2",
      NetCall.streamsCall "516575"]⟩, rfl, h.2 _ _ rfl⟩

/-- C4 counterexample: with a failing token exchange the cache stays empty,
so two sequential resolutions perform two token exchange requests; the
claimed at-most-once bound is violated. -/
theorem token_fetch_at_most_once_counterexample :
    runSequence [(badProvider, some "Valorant"), (badProvider, some "Valorant")]
      st0 = Except.ok ([0, 0], ⟨none, [NetCall.tokenCall, NetCall.tokenCall]⟩) ∧
    ¬ tokenFetchCount ⟨none, [NetCall.tokenCall, NetCall.tokenCall]⟩ ≤ 1 :=
  ⟨rfl, by decide⟩

end EsportsDashboard
